import Mathlib

/-!
Verification of the dataset-acquisition core of icepack
(`src/icepack/datasets.py`) against its natural-language specification.

The Python module is shallowly embedded: every definition below is a direct
translation of a function (or an expression) of `datasets.py`.  External
collaborators (the `earthaccess` catalog service and the `pooch.Unzip`
extractor) are modelled as explicit oracle parameters, matching the spec's
stub-catalog style of testing.  Python exceptions become an explicit
`PyError` sum carried in `Except`; the on-disk cache becomes an explicit
association list threaded through calls.
-/

namespace Icepack

/-- Python exception classes that appear in `datasets.py`'s control flow:
`KeyError` (dict lookup), `IndexError` (sequence `[0]` on an empty sequence),
`ValueError` (explicit raises) and `NameError` (use of an undefined
identifier). -/
inductive PyError where
  | keyError (key : String)
  | indexError
  | valueError (msg : String)
  | nameError (ident : String)
deriving Repr, DecidableEq

/-- The value returned by one `pooch.retrieve` call: `pooch.retrieve`
returns whatever its processor returns, which in this module is either a
single path string (no processor, or `pooch.Decompress`) or a flat list of
path strings (`_recursive_unzip`). -/
inductive Retrieved where
  | path (p : String)
  | paths (ps : List String)
deriving Repr, DecidableEq

/-- The value returned by `_fetch_nsidc` (and by
`fetch_randolph_glacier_inventory`): `filenames[0] if len(filenames) == 1
else filenames`, i.e. either the lone element or the whole list. -/
inductive FetchResult where
  | single (r : Retrieved)
  | multiple (rs : List Retrieved)
deriving Repr, DecidableEq

/-- Index of the last occurrence of `c` in `cs` (Python `str.rfind`,
returning `none` instead of `-1`). -/
def rfindChar (cs : List Char) (c : Char) : Option Nat :=
  match cs with
  | [] => none
  | x :: xs =>
    match rfindChar xs c with
    | some i => some (i + 1)
    | none => if x = c then some 0 else none

/-- Split a character list on a separator character (Python
`str.split(sep)` on the underlying characters). -/
def splitOnChar (cs : List Char) (sep : Char) : List (List Char) :=
  match cs with
  | [] => [[]]
  | c :: rest =>
    let r := splitOnChar rest sep
    if c = sep then [] :: r
    else
      match r with
      | [] => [[c]]
      | g :: gs => (c :: g) :: gs

/-- `pathlib.PurePosixPath(p).name`: the last non-empty `/`-separated
component of the path (empty for a root or empty path). -/
def pathName (p : String) : String :=
  String.mk (((splitOnChar p.data '/').filter (fun s => !s.isEmpty)).getLastD [])

/-- `pathlib.PurePosixPath(p).suffix`: CPython computes
`i = name.rfind('.')` and returns `name[i:]` when `0 < i < len(name) - 1`,
else the empty string. -/
def pathSuffix (p : String) : String :=
  let name := (pathName p).data
  match rfindChar name '.' with
  | some i => if 0 < i ∧ i < name.length - 1 then String.mk (name.drop i) else ""
  | none => ""

/-- One dataset-collection record as returned by
`earthaccess.search_datasets`: its `summary()["get-data"]` list of data
access URLs (the `earthaccess` collection summary always carries this
list; it may be empty). -/
structure Collection where
  getData : List String
deriving Repr, DecidableEq

/-- One granule record as returned by `earthaccess.search_data`: its
`data_links()` list. -/
structure Granule where
  dataLinks : List String
deriving Repr, DecidableEq

/-- The external catalog service, as an oracle: the record lists that
`earthaccess.search_datasets` and `earthaccess.search_data` return for the
search spec of the call under consideration. -/
structure Catalog where
  searchDatasets : List Collection
  searchData : List Granule
deriving Repr, DecidableEq

/-- Python dict subscript `kwargs[key]`: the value, or a `KeyError` naming
the missing key. -/
def dictGet (kwargs : List (String × String)) (key : String) :
    Except PyError String :=
  match kwargs.lookup key with
  | some v => .ok v
  | none => .error (.keyError key)

/-- Python sequence subscript `xs[0]`: the first element, or an
`IndexError` on an empty sequence. -/
def seqFirst {α : Type} (xs : List α) : Except PyError α :=
  match xs with
  | [] => .error .indexError
  | x :: _ => .ok x

/-- The expression `results[0].summary()["get-data"][0] + extra + filename`
of the `try` block, for one collection record `first`:
`first.summary()["get-data"][0] + extra + filename` (as the one-element URL
list the block builds). -/
def collectionUrl (first : Collection) (extra filename : String) :
    Except PyError (List String) :=
  match seqFirst first.getData with
  | .error err => .error err
  | .ok base => .ok [base ++ extra ++ filename]

/-- The catalog part of the `try` block of `_fetch_nsidc`:
`results = earthaccess.search_datasets(**search)` followed by
`urls = [results[0].summary()["get-data"][0] + extra + filename]`. -/
def metadataCatalogPart (cat : Catalog) (extra filename : String) :
    Except PyError (List String) :=
  match seqFirst cat.searchDatasets with
  | .error err => .error err
  | .ok first => collectionUrl first extra filename

/-- The whole `try` block of `_fetch_nsidc`: read `kwargs["extra"]` and
`kwargs["filename"]`, then run the collection query and build the URL;
each step's exception aborts the block. -/
def metadataStrategy (cat : Catalog) (kwargs : List (String × String)) :
    Except PyError (List String) :=
  match dictGet kwargs "extra" with
  | .error err => .error err
  | .ok extra =>
    match dictGet kwargs "filename" with
    | .error err => .error err
    | .ok filename => metadataCatalogPart cat extra filename

/-- The `except KeyError` block of `_fetch_nsidc`: query
`earthaccess.search_data` and return `results[0].data_links()`. -/
def granuleStrategy (cat : Catalog) : Except PyError (List String) :=
  match seqFirst cat.searchData with
  | .error err => .error err
  | .ok first => .ok first.dataLinks

/-- URL resolution of `_fetch_nsidc`: run the `try` block; a `KeyError`
escaping it selects the granule branch, every other outcome (success or
any other exception) passes through unchanged. -/
def fetchNsidcUrls (cat : Catalog) (kwargs : List (String × String)) :
    Except PyError (List String) :=
  match metadataStrategy cat kwargs with
  | .error (.keyError _) => granuleStrategy cat
  | other => other

/-- One iteration of `_fetch_nsidc`'s retrieval loop:
`pooch.retrieve(url, fname=pathlib.Path(url).name, **kw)` stores the file
at `path/fname` and returns the processor's output on it (or the local
path itself when no processor is given). -/
def retrieveOne (cacheDir : String) (processor : Option (String → Retrieved))
    (url : String) : Retrieved :=
  let localPath := cacheDir ++ "/" ++ pathName url
  match processor with
  | none => .path localPath
  | some proc => proc localPath

/-- The return expression of `_fetch_nsidc` (and of
`fetch_randolph_glacier_inventory`):
`filenames[0] if len(filenames) == 1 else filenames`. -/
def unwrapSingle (filenames : List Retrieved) : FetchResult :=
  match filenames with
  | [f] => .single f
  | fs => .multiple fs

/-- `_fetch_nsidc`: resolve the URLs, retrieve each in order, and return
`filenames[0] if len(filenames) == 1 else filenames`. -/
def fetchNsidc (cat : Catalog) (cacheDir : String)
    (kwargs : List (String × String))
    (processor : Option (String → Retrieved)) : Except PyError FetchResult :=
  match fetchNsidcUrls cat kwargs with
  | .error err => .error err
  | .ok urls => .ok (unwrapSingle (urls.map (retrieveOne cacheDir processor)))

/-- The path sequence denoted by one processor output (the spec's
`ProcessorResult` is "always a sequence, even for single-output
transforms"). -/
def retrievedSeq : Retrieved → List String
  | .path p => [p]
  | .paths ps => ps

/-- Unwrap step as the spec words it, on the flattened path sequence. -/
def unwrapSingleFlat (flat : List String) : FetchResult :=
  match flat with
  | [f] => .single (.path f)
  | fs => .multiple (fs.map .path)

/-- Modelled from the spec (§4.3): the orchestrator as the spec words it —
collect all processor outputs across all resolved URLs into one flat
ordered sequence; return the single element unwrapped when the sequence
has exactly one element, and the ordered sequence otherwise.  Stated only
to compare against `fetchNsidc` in C5. -/
def fetchNsidcSpecFlat (cat : Catalog) (cacheDir : String)
    (kwargs : List (String × String))
    (processor : Option (String → Retrieved)) : Except PyError FetchResult :=
  match fetchNsidcUrls cat kwargs with
  | .error err => .error err
  | .ok urls =>
    .ok (unwrapSingleFlat
      ((urls.map (retrieveOne cacheDir processor)).flatMap retrievedSeq))

/-- `get_glacier_names()`: the fixed eleven-element glacier catalog literal
from `datasets.py`. -/
def get_glacier_names : List String :=
  ["amery", "filchner-ronne", "getz", "helheim", "hiawatha", "jakobshavn",
   "larsen-2015", "larsen-2018", "larsen-2019", "pine-island", "ross"]

/-- An error escaping `seqFirst` (`xs[0]`) is always an `IndexError`. -/
theorem seqFirst_error {α : Type} (xs : List α) (err : PyError)
    (h : seqFirst xs = .error err) : err = .indexError := by
  cases xs with
  | nil => exact (Except.error.inj h).symm
  | cons x tl => exact absurd h (by simp [seqFirst])

/-- `collectionUrl` never raises `KeyError`. -/
theorem collectionUrl_not_keyError (first : Collection) (e f k : String) :
    collectionUrl first e f ≠ .error (.keyError k) := by
  unfold collectionUrl
  cases hs : seqFirst first.getData with
  | error err =>
    have herr := seqFirst_error _ _ hs
    subst herr
    intro hc
    exact PyError.noConfusion (Except.error.inj hc)
  | ok base =>
    intro hc
    exact Except.noConfusion hc

/-- `metadataCatalogPart` never raises `KeyError`. -/
theorem metadataCatalogPart_not_keyError (cat : Catalog) (e f k : String) :
    metadataCatalogPart cat e f ≠ .error (.keyError k) := by
  unfold metadataCatalogPart
  cases hs : seqFirst cat.searchDatasets with
  | error err =>
    have herr := seqFirst_error _ _ hs
    subst herr
    intro hc
    exact PyError.noConfusion (Except.error.inj hc)
  | ok first => exact collectionUrl_not_keyError first e f k

/-- When both `"extra"` and `"filename"` are present in `kwargs`, the two
dict reads of the `try` block succeed, leaving its catalog part. -/
theorem metadataStrategy_of_keys (cat : Catalog) (kwargs : List (String × String))
    (e f : String) (he : kwargs.lookup "extra" = some e)
    (hf : kwargs.lookup "filename" = some f) :
    metadataStrategy cat kwargs = metadataCatalogPart cat e f := by
  unfold metadataStrategy dictGet
  rw [he, hf]

/-- With both keys present, no `KeyError` can escape the `try` block, so
`_fetch_nsidc` resolves by the metadata strategy. -/
theorem urls_of_both_keys (cat : Catalog) (kwargs : List (String × String))
    (e f : String) (he : kwargs.lookup "extra" = some e)
    (hf : kwargs.lookup "filename" = some f) :
    fetchNsidcUrls cat kwargs = metadataStrategy cat kwargs := by
  unfold fetchNsidcUrls
  cases hm : metadataStrategy cat kwargs with
  | ok v => rfl
  | error err =>
    cases err with
    | keyError k =>
      rw [metadataStrategy_of_keys cat kwargs e f he hf] at hm
      exact absurd hm (metadataCatalogPart_not_keyError cat e f k)
    | indexError => rfl
    | valueError m => rfl
    | nameError i => rfl

/-- With either key absent, the `try` block raises a `KeyError` at the
dict read, and `_fetch_nsidc` falls back to the granule strategy. -/
theorem urls_of_missing_key (cat : Catalog) (kwargs : List (String × String))
    (h : (kwargs.lookup "extra").isNone ∨ (kwargs.lookup "filename").isNone) :
    fetchNsidcUrls cat kwargs = granuleStrategy cat := by
  have hkey : ∃ k, metadataStrategy cat kwargs = .error (.keyError k) := by
    unfold metadataStrategy dictGet
    rcases h with h | h
    · rw [Option.isNone_iff_eq_none] at h
      rw [h]
      exact ⟨"extra", rfl⟩
    · rw [Option.isNone_iff_eq_none] at h
      rw [h]
      cases hx : kwargs.lookup "extra" with
      | none => exact ⟨"extra", rfl⟩
      | some e => exact ⟨"filename", rfl⟩
  obtain ⟨k, hk⟩ := hkey
  unfold fetchNsidcUrls
  rw [hk]

/-- The catalog part of the metadata strategy on a nonempty collection
list whose first record declares at least one data-access URL. -/
theorem metadataCatalogPart_cons (cat : Catalog) (e f base : String)
    (c : Collection) (cs : List Collection) (bs : List String)
    (hcat : cat.searchDatasets = c :: cs) (hbase : c.getData = base :: bs) :
    metadataCatalogPart cat e f = .ok [base ++ e ++ f] := by
  unfold metadataCatalogPart
  rw [hcat]
  show collectionUrl c e f = _
  unfold collectionUrl
  rw [hbase]
  rfl

/-- The catalog part of the metadata strategy on an empty collection list:
`results[0]` raises `IndexError`. -/
theorem metadataCatalogPart_nil (cat : Catalog) (e f : String)
    (hcat : cat.searchDatasets = []) :
    metadataCatalogPart cat e f = .error .indexError := by
  unfold metadataCatalogPart
  rw [hcat]
  rfl

/-- The granule strategy on an empty granule list: `results[0]` raises
`IndexError`. -/
theorem granuleStrategy_nil (cat : Catalog) (hdata : cat.searchData = []) :
    granuleStrategy cat = .error .indexError := by
  unfold granuleStrategy
  rw [hdata]
  rfl

/-- `_fetch_nsidc` propagates a resolution error unchanged. -/
theorem fetchNsidc_error (cat : Catalog) (cacheDir : String)
    (kwargs : List (String × String)) (processor : Option (String → Retrieved))
    (err : PyError) (h : fetchNsidcUrls cat kwargs = .error err) :
    fetchNsidc cat cacheDir kwargs processor = .error err := by
  unfold fetchNsidc
  rw [h]

/-- `_fetch_nsidc` on successfully resolved URLs retrieves each and
applies the final unwrap-if-singleton step. -/
theorem fetchNsidc_ok (cat : Catalog) (cacheDir : String)
    (kwargs : List (String × String)) (processor : Option (String → Retrieved))
    (urls : List String) (h : fetchNsidcUrls cat kwargs = .ok urls) :
    fetchNsidc cat cacheDir kwargs processor =
      .ok (unwrapSingle (urls.map (retrieveOne cacheDir processor))) := by
  unfold fetchNsidc
  rw [h]

/-- `unwrapSingle` on a list that does not have exactly one element
returns the list itself. -/
theorem unwrapSingle_ne_one (fs : List Retrieved) (h : fs.length ≠ 1) :
    unwrapSingle fs = .multiple fs := by
  match fs with
  | [] => rfl
  | [f] => exact absurd rfl h
  | f :: g :: gs => rfl

/-- C3: resolution-strategy selection is structural: exactly when both the
filename override (`kwargs["filename"]`) and the path fragment
(`kwargs["extra"]`) are supplied does `_fetch_nsidc` resolve by the
metadata strategy; in every other case it resolves by the granule
strategy. -/
theorem C3_strategy_selection_structural (cat : Catalog)
    (kwargs : List (String × String)) :
    (∀ e f, kwargs.lookup "extra" = some e → kwargs.lookup "filename" = some f →
      fetchNsidcUrls cat kwargs = metadataStrategy cat kwargs) ∧
    (((kwargs.lookup "extra").isNone ∨ (kwargs.lookup "filename").isNone) →
      fetchNsidcUrls cat kwargs = granuleStrategy cat) :=
  ⟨fun e f he hf => urls_of_both_keys cat kwargs e f he hf,
   fun h => urls_of_missing_key cat kwargs h⟩

/-- C3 witness: with both keys supplied resolution equals the metadata
strategy, and with no keys supplied it equals the granule strategy, at a
concrete stub catalog. -/
theorem C3_strategy_selection_structural_witness :
    fetchNsidcUrls ⟨[⟨["https://host/data/"]⟩], [⟨["https://host/g.nc"]⟩]⟩
        [("extra", "extra/"), ("filename", "f.tif")] =
      metadataStrategy ⟨[⟨["https://host/data/"]⟩], [⟨["https://host/g.nc"]⟩]⟩
        [("extra", "extra/"), ("filename", "f.tif")] ∧
    fetchNsidcUrls ⟨[⟨["https://host/data/"]⟩], [⟨["https://host/g.nc"]⟩]⟩ [] =
      granuleStrategy ⟨[⟨["https://host/data/"]⟩], [⟨["https://host/g.nc"]⟩]⟩ :=
  ⟨(C3_strategy_selection_structural _ _).1 "extra/" "f.tif" rfl rfl,
   (C3_strategy_selection_structural _ _).2 (Or.inl rfl)⟩

/-- C6: under the metadata strategy the resolver takes the first collection
record, extracts its first declared data-access URL, and produces exactly
the one URL `base ++ extra ++ filename`. -/
theorem C6_metadata_url_construction (cat : Catalog)
    (kwargs : List (String × String)) (e f base : String)
    (c : Collection) (cs : List Collection) (bs : List String)
    (he : kwargs.lookup "extra" = some e)
    (hf : kwargs.lookup "filename" = some f)
    (hcat : cat.searchDatasets = c :: cs) (hbase : c.getData = base :: bs) :
    fetchNsidcUrls cat kwargs = .ok [base ++ e ++ f] := by
  rw [urls_of_both_keys cat kwargs e f he hf,
    metadataStrategy_of_keys cat kwargs e f he hf,
    metadataCatalogPart_cons cat e f base c cs bs hcat hbase]

/-- C6 witness: the spec's stub — base URL `"https://host/data/"`, path
fragment `"extra/"`, filename `"f.tif"` — resolves to exactly
`["https://host/data/extra/f.tif"]`. -/
theorem C6_metadata_url_construction_witness :
    fetchNsidcUrls ⟨[⟨["https://host/data/"]⟩], []⟩
        [("extra", "extra/"), ("filename", "f.tif")] =
      .ok ["https://host/data/extra/f.tif"] := by
  have h := C6_metadata_url_construction ⟨[⟨["https://host/data/"]⟩], []⟩
    [("extra", "extra/"), ("filename", "f.tif")] "extra/" "f.tif"
    "https://host/data/" ⟨["https://host/data/"]⟩ [] [] rfl rfl rfl rfl
  exact h

/-- C7: a catalog query returning zero matching records makes the whole
fetch fail with the index-out-of-range error, under either strategy; no
partial or empty result is returned. -/
theorem C7_empty_query_fatal_index_error (cat : Catalog) (cacheDir : String)
    (kwargs : List (String × String)) (processor : Option (String → Retrieved)) :
    (∀ e f, kwargs.lookup "extra" = some e → kwargs.lookup "filename" = some f →
      cat.searchDatasets = [] →
      fetchNsidc cat cacheDir kwargs processor = .error .indexError) ∧
    (((kwargs.lookup "extra").isNone ∨ (kwargs.lookup "filename").isNone) →
      cat.searchData = [] →
      fetchNsidc cat cacheDir kwargs processor = .error .indexError) := by
  constructor
  · intro e f he hf hcat
    refine fetchNsidc_error cat cacheDir kwargs processor _ ?_
    rw [urls_of_both_keys cat kwargs e f he hf,
      metadataStrategy_of_keys cat kwargs e f he hf,
      metadataCatalogPart_nil cat e f hcat]
  · intro h hdata
    refine fetchNsidc_error cat cacheDir kwargs processor _ ?_
    rw [urls_of_missing_key cat kwargs h, granuleStrategy_nil cat hdata]

/-- C7 witness: an empty collection list under the metadata strategy and an
empty granule list under the granule strategy both surface as
`IndexError`, at a concrete empty stub catalog. -/
theorem C7_empty_query_fatal_index_error_witness :
    fetchNsidc ⟨[], []⟩ "cache" [("extra", "e/"), ("filename", "f.tif")] none =
      .error .indexError ∧
    fetchNsidc ⟨[], []⟩ "cache" [] none = .error .indexError :=
  ⟨(C7_empty_query_fatal_index_error ⟨[], []⟩ "cache"
      [("extra", "e/"), ("filename", "f.tif")] none).1 "e/" "f.tif" rfl rfl rfl,
   (C7_empty_query_fatal_index_error ⟨[], []⟩ "cache" [] none).2
      (Or.inl rfl) rfl⟩

/-- C5 counterexample: one resolved URL whose processor yields a
one-element list of paths.  `_fetch_nsidc` returns that one-element list
(the per-URL results are never flattened), while the spec's flattened
orchestrator would unwrap it to the bare path; the two values differ. -/
theorem C5_counterexample :
    fetchNsidc ⟨[], [⟨["http://host/rgi.zip"]⟩]⟩ "cache" []
        (some fun _ => .paths ["region.shp"]) =
      .ok (.single (.paths ["region.shp"])) ∧
    fetchNsidcSpecFlat ⟨[], [⟨["http://host/rgi.zip"]⟩]⟩ "cache" []
        (some fun _ => .paths ["region.shp"]) =
      .ok (.single (.path "region.shp")) ∧
    FetchResult.single (.paths ["region.shp"]) ≠
      FetchResult.single (.path "region.shp") :=
  ⟨rfl, rfl, by decide⟩

/-- C5 amended: `_fetch_nsidc` collects one processor output per resolved
URL, without flattening; it unwraps exactly when that per-URL sequence has
one element (even if that element is itself a list of paths), and returns
the ordered per-URL sequence otherwise. -/
theorem C5_per_url_collect_and_unwrap (cat : Catalog) (cacheDir : String)
    (kwargs : List (String × String)) (processor : Option (String → Retrieved))
    (urls : List String) (h : fetchNsidcUrls cat kwargs = .ok urls) :
    (∀ f, urls.map (retrieveOne cacheDir processor) = [f] →
      fetchNsidc cat cacheDir kwargs processor = .ok (.single f)) ∧
    ((urls.map (retrieveOne cacheDir processor)).length ≠ 1 →
      fetchNsidc cat cacheDir kwargs processor =
        .ok (.multiple (urls.map (retrieveOne cacheDir processor)))) := by
  constructor
  · intro f hf
    rw [fetchNsidc_ok cat cacheDir kwargs processor urls h, hf]
    rfl
  · intro hlen
    rw [fetchNsidc_ok cat cacheDir kwargs processor urls h,
      unwrapSingle_ne_one _ hlen]

/-- C5 witness: two resolved URLs with no processor yield the ordered
two-element list of local paths. -/
theorem C5_per_url_collect_and_unwrap_witness :
    fetchNsidc ⟨[], [⟨["http://h/a.nc", "http://h/b.nc"]⟩]⟩ "c" [] none =
      .ok (.multiple [.path "c/a.nc", .path "c/b.nc"]) := by
  have h := (C5_per_url_collect_and_unwrap
    ⟨[], [⟨["http://h/a.nc", "http://h/b.nc"]⟩]⟩ "c" [] none
    ["http://h/a.nc", "http://h/b.nc"] rfl).2 (by decide)
  exact h

/-- `_recursive_unzip(top_level_filename, action, pup)`: unzip the top
archive with a fresh `pooch.Unzip` (the oracle `unzip` maps an archive
path to its extraction outputs); for every resulting entry whose suffix is
`.zip`, unzip it too and extend `results` with its outputs; finally return
the entries of `results` whose suffix is `.shp`.  Note: top-level outputs
are only scanned for nested zips, never themselves added to `results`. -/
def recursive_unzip (unzip : String → List String) (top : String) :
    List String :=
  let filenames := unzip top
  let results := filenames.flatMap
    (fun filename => if pathSuffix filename = ".zip" then unzip filename else [])
  results.filter (fun r => pathSuffix r = ".shp")

/-- Modelled from the spec (§4.4 Recursive-unzip-filter): returns the
entries among all unzip outputs — the top-level extraction outputs and the
outputs of unzipping each top-level `.zip` entry — whose extension is
`.shp`.  Stated only to compare against `recursive_unzip` in C1. -/
def recursiveUnzipSpecAll (unzip : String → List String) (top : String) :
    List String :=
  List.filter (fun r => pathSuffix r = ".shp")
    (unzip top ++ (unzip top).flatMap
      (fun filename => if pathSuffix filename = ".zip" then unzip filename else []))

/-- Python `needle in hay` on strings: contiguous-substring containment. -/
def strContains (hay needle : String) : Bool :=
  (List.range (hay.data.length + 1)).any
    (fun i => needle.data.isPrefixOf (hay.data.drop i))

/-- The selection step of `fetch_randolph_glacier_inventory` after
filtering: raise `ValueError` on no match, else return
`filenames[0] if len(filenames) == 1 else filenames`. -/
def rgiSelect (filenames : List String) (n : String) : Except PyError Retrieved :=
  match filenames with
  | [] => .error (.valueError ("`" ++ n ++ "` not a valid RGI region!"))
  | [f] => .ok (.path f)
  | fs => .ok (.paths fs)

/-- `fetch_randolph_glacier_inventory`, from the point where the
orchestrator has returned the processed filenames (for the RGI catalog
entry, `_recursive_unzip` yields the list `all_filenames` of `.shp`
paths): with `name=None` return them as-is; otherwise keep the filenames
containing `name` and select. -/
def fetch_randolph_glacier_inventory (all_filenames : List String)
    (name : Option String) : Except PyError Retrieved :=
  match name with
  | none => .ok (.paths all_filenames)
  | some n => rgiSelect (all_filenames.filter (fun f => strContains f n)) n

/-- `fetch_randolph_glacier_inventory` with a supplied name filters and
selects. -/
theorem fetch_rgi_some (all_filenames : List String) (n : String) :
    fetch_randolph_glacier_inventory all_filenames (some n) =
      rgiSelect (all_filenames.filter (fun f => strContains f n)) n := rfl

/-- C1 counterexample: a top-level archive that extracts to a single
`.shp` entry and contains no nested archive.  The claim says the `.shp`
entry is returned; `_recursive_unzip` returns the empty list, because
top-level extraction outputs are never added to its result. -/
theorem C1_counterexample :
    recursive_unzip
        (fun s => if s = "top.zip" then ["outline.shp"] else []) "top.zip" =
      [] ∧
    recursiveUnzipSpecAll
        (fun s => if s = "top.zip" then ["outline.shp"] else []) "top.zip" =
      ["outline.shp"] ∧
    ([] : List String) ≠ ["outline.shp"] := by
  refine ⟨rfl, rfl, by decide⟩

/-- C1 amended: `_recursive_unzip` returns exactly the entries whose
extension is `.shp` among the outputs of unzipping the top-level entries
whose extension is `.zip` (one nested level only); top-level extraction
outputs themselves — `.shp` or otherwise — are never part of the result,
they are only scanned for nested archives. -/
theorem C1_nested_outputs_shp_filter (unzip : String → List String)
    (top r : String) :
    r ∈ recursive_unzip unzip top ↔
      pathSuffix r = ".shp" ∧
      ∃ f ∈ unzip top, pathSuffix f = ".zip" ∧ r ∈ unzip f := by
  unfold recursive_unzip
  constructor
  · intro hr
    rw [List.mem_filter] at hr
    obtain ⟨hmem, hs⟩ := hr
    rw [List.mem_flatMap] at hmem
    obtain ⟨f, hf, hrf⟩ := hmem
    by_cases hz : pathSuffix f = ".zip"
    · rw [if_pos hz] at hrf
      exact ⟨of_decide_eq_true hs, f, hf, hz, hrf⟩
    · rw [if_neg hz] at hrf
      exact absurd hrf (List.not_mem_nil r)
  · rintro ⟨hs, f, hf, hz, hrf⟩
    rw [List.mem_filter]
    refine ⟨?_, decide_eq_true hs⟩
    rw [List.mem_flatMap]
    exact ⟨f, hf, by rw [if_pos hz]; exact hrf⟩

/-- C10: with `name=None` (the default) `fetch_randolph_glacier_inventory`
returns all processed filenames unfiltered and raises nothing; and for a
supplied name the region-validation `ValueError` occurs exactly when no
returned filename contains it. -/
theorem C10_none_unfiltered_error_iff_no_match (all_filenames : List String) :
    fetch_randolph_glacier_inventory all_filenames none =
      .ok (.paths all_filenames) ∧
    (∀ n, fetch_randolph_glacier_inventory all_filenames (some n) =
        .error (.valueError ("`" ++ n ++ "` not a valid RGI region!")) ↔
      all_filenames.filter (fun f => strContains f n) = []) := by
  constructor
  · rfl
  · intro n
    constructor
    · intro herr
      cases hfil : all_filenames.filter (fun f => strContains f n) with
      | nil => rfl
      | cons f fs =>
        rw [fetch_rgi_some all_filenames n, hfil] at herr
        cases fs with
        | nil => exact Except.noConfusion herr
        | cons g gs => exact Except.noConfusion herr
    · intro hfil
      rw [fetch_rgi_some all_filenames n, hfil]
      rfl

/-- The pinned default commit of `fetch_outline`. -/
def default_commit : String := "5906b7c21d844a982aa012e934fe29b31ef13d41"

/-- The fixed base of the glacier-outlines repository URL. -/
def outlines_url : String :=
  "https://raw.githubusercontent.com/icepack/glacier-meshes"

/-- Python `commit or default_commit`: `None` and the empty string are
falsy, so both fall back to the default commit. -/
def commitOrDefault (commit : Option String) : String :=
  match commit with
  | none => default_commit
  | some c => if c = "" then default_commit else c

/-- The URL built by `fetch_outline` out of the fixed base, the commit
token and the glacier name. -/
def outlineUrl (name : String) (commit : Option String) : String :=
  outlines_url ++ "/" ++ commitOrDefault commit ++ "/glaciers/" ++ name
    ++ ".geojson"

/-- The destination filename `fetch_outline` passes to `pooch.retrieve`;
it mentions only the name, never the commit. -/
def outlineFname (name : String) : String := name ++ ".geojson"

/-- The local cache directory contents: for each destination filename
already present, the URL its content was downloaded from. -/
structure Cache where
  entries : List (String × String)
deriving Repr, DecidableEq

/-- `pooch.retrieve(url, fname, known_hash=None, path=cacheDir)`: returns
the local path `cacheDir/fname`; with no verification token a file already
present under `fname` is trusted as-is (no download), otherwise the URL is
downloaded to it.  The Boolean records whether a download happened. -/
def poochRetrieve (cache : Cache) (cacheDir url fname : String) :
    String × Cache × Bool :=
  match cache.entries.lookup fname with
  | some _ => (cacheDir ++ "/" ++ fname, cache, false)
  | none => (cacheDir ++ "/" ++ fname, ⟨(fname, url) :: cache.entries⟩, true)

/-- `fetch_outline`: validate the name against the glacier catalog — on an
unknown name the `raise ValueError("Glacier name ... not in ..." % (name,
names))` line evaluates the undefined global identifier `names`, so the
call raises `NameError` before any retrieval; on a known name retrieve the
outline from the commit-pinned URL into the cache under
`name ++ ".geojson"`. -/
def fetch_outline (cache : Cache) (cacheDir : String) (name : String)
    (commit : Option String) : Except PyError (String × Cache × Bool) :=
  if name ∈ get_glacier_names then
    .ok (poochRetrieve cache cacheDir (outlineUrl name commit)
      (outlineFname name))
  else
    .error (.nameError "names")

/-- `String.data` distributes over append (definitional, via structure
eta). -/
theorem data_append (a b : String) : (a ++ b).data = a.data ++ b.data := rfl

/-- `commit or default_commit` on a supplied token. -/
theorem commitOrDefault_some (c : String) :
    commitOrDefault (some c) = if c = "" then default_commit else c := rfl

/-- Cache hit: `pooch.retrieve` on an already-present filename returns the
local path without touching the cache or the network. -/
theorem poochRetrieve_hit (cache : Cache) (cacheDir url fname v : String)
    (h : cache.entries.lookup fname = some v) :
    poochRetrieve cache cacheDir url fname =
      (cacheDir ++ "/" ++ fname, cache, false) := by
  unfold poochRetrieve
  rw [h]

/-- Cache miss: `pooch.retrieve` downloads the URL and records it under
the destination filename. -/
theorem poochRetrieve_miss (cache : Cache) (cacheDir url fname : String)
    (h : cache.entries.lookup fname = none) :
    poochRetrieve cache cacheDir url fname =
      (cacheDir ++ "/" ++ fname, ⟨(fname, url) :: cache.entries⟩, true) := by
  unfold poochRetrieve
  rw [h]

/-- `fetch_outline` on a catalogued name is one plain cached retrieval. -/
theorem fetch_outline_valid (cache : Cache) (cacheDir name : String)
    (commit : Option String) (hmem : name ∈ get_glacier_names) :
    fetch_outline cache cacheDir name commit =
      .ok (poochRetrieve cache cacheDir (outlineUrl name commit)
        (outlineFname name)) := by
  unfold fetch_outline
  rw [if_pos hmem]

/-- After any successful `fetch_outline`, repeating the fetch for the same
name (with any commit token) is a cache hit: the same local path comes
back, the cache is unchanged, and no download happens. -/
theorem outline_second_fetch (cache : Cache) (cacheDir name : String)
    (commit commit2 : Option String) (hmem : name ∈ get_glacier_names)
    (r : String × Cache × Bool)
    (h : fetch_outline cache cacheDir name commit = .ok r) :
    fetch_outline r.2.1 cacheDir name commit2 = .ok (r.1, r.2.1, false) := by
  rw [fetch_outline_valid cache cacheDir name commit hmem] at h
  have hr := (Except.ok.inj h).symm
  subst hr
  cases hl : cache.entries.lookup (outlineFname name) with
  | some v =>
    rw [poochRetrieve_hit cache cacheDir (outlineUrl name commit)
      (outlineFname name) v hl]
    rw [fetch_outline_valid cache cacheDir name commit2 hmem,
      poochRetrieve_hit cache cacheDir (outlineUrl name commit2)
        (outlineFname name) v hl]
  | none =>
    rw [poochRetrieve_miss cache cacheDir (outlineUrl name commit)
      (outlineFname name) hl]
    have hl2 : (Cache.mk ((outlineFname name, outlineUrl name commit)
        :: cache.entries)).entries.lookup (outlineFname name) =
        some (outlineUrl name commit) := by
      simp [List.lookup]
    rw [fetch_outline_valid _ cacheDir name commit2 hmem,
      poochRetrieve_hit _ cacheDir (outlineUrl name commit2)
        (outlineFname name) (outlineUrl name commit) hl2]

/-- C2: evaluation at the failing input: an unknown glacier name makes
`fetch_outline` raise `NameError` on the undefined identifier `names`
while building the validation message — not the `ValueError` the claim
states — and it does so before any retrieval, so no network access is
performed. -/
theorem C2_unknown_name_nameError_eval :
    fetch_outline ⟨[]⟩ "cache" "not-a-real-glacier" none =
      .error (.nameError "names") := by
  rfl

/-- C4 counterexample: the empty string and the default commit are two
distinct commit tokens, yet `fetch_outline` builds the same URL for both,
because Python's `commit or default_commit` treats the empty string as
falsy. -/
theorem C4_counterexample :
    ("" : String) ≠ default_commit ∧
    outlineUrl "helheim" (some "") =
      outlineUrl "helheim" (some default_commit) := by
  constructor
  · decide
  · rfl

/-- C4 amended: for distinct commit tokens that are both non-empty (a
`None` or empty token falls back to the default commit), the built URLs
are distinct; and repeating `fetch_outline` with the same (name, commit)
pair yields the same local path both times, with no second download. -/
theorem C4_distinct_urls_and_cache_idempotence :
    (∀ name A B : String, A ≠ "" → B ≠ "" → A ≠ B →
      outlineUrl name (some A) ≠ outlineUrl name (some B)) ∧
    (∀ (cache : Cache) (cacheDir name : String) (commit : Option String)
        (r : String × Cache × Bool), name ∈ get_glacier_names →
      fetch_outline cache cacheDir name commit = .ok r →
      fetch_outline r.2.1 cacheDir name commit = .ok (r.1, r.2.1, false)) := by
  constructor
  · intro name A B hA hB hAB hEq
    apply hAB
    unfold outlineUrl at hEq
    rw [commitOrDefault_some, commitOrDefault_some, if_neg hA, if_neg hB]
      at hEq
    have hd := congrArg String.data hEq
    simp only [data_append, List.append_assoc] at hd
    have hd2 := List.append_cancel_left hd
    have hd3 := List.append_cancel_left hd2
    have hd4 := List.append_cancel_right hd3
    exact congrArg String.mk hd4
  · intro cache cacheDir name commit r hmem h
    exact outline_second_fetch cache cacheDir name commit commit hmem r h

/-- C4 witness: concrete distinct non-empty commits give distinct URLs,
and a concrete repeated fetch is a cache hit with the same path. -/
theorem C4_distinct_urls_and_cache_idempotence_witness :
    outlineUrl "helheim" (some "aaa") ≠ outlineUrl "helheim" (some "bbb") ∧
    fetch_outline ⟨[("helheim.geojson",
        outlineUrl "helheim" (some "aaa"))]⟩ "cache" "helheim" (some "aaa") =
      .ok ("cache/helheim.geojson",
        ⟨[("helheim.geojson", outlineUrl "helheim" (some "aaa"))]⟩, false) :=
  ⟨C4_distinct_urls_and_cache_idempotence.1 "helheim" "aaa" "bbb"
      (by decide) (by decide) (by decide),
   C4_distinct_urls_and_cache_idempotence.2
      ⟨[]⟩ "cache" "helheim" (some "aaa")
      ("cache/helheim.geojson",
        ⟨[("helheim.geojson", outlineUrl "helheim" (some "aaa"))]⟩, true)
      (by decide) (by rfl)⟩

/-- C9: the cache destination filename of `fetch_outline` is
`name ++ ".geojson"`, independent of the commit: fetching the same name
under two different commits hits the same local path, and the second call
is a cache hit that returns the file downloaded from the first commit's
URL (the cache still maps the filename to the first URL). -/
theorem C9_commit_independent_cache_path (cache : Cache)
    (cacheDir name : String) (A B : Option String)
    (hmem : name ∈ get_glacier_names)
    (hnone : cache.entries.lookup (outlineFname name) = none) :
    fetch_outline cache cacheDir name A =
      .ok (cacheDir ++ "/" ++ outlineFname name,
        ⟨(outlineFname name, outlineUrl name A) :: cache.entries⟩, true) ∧
    fetch_outline ⟨(outlineFname name, outlineUrl name A) :: cache.entries⟩
        cacheDir name B =
      .ok (cacheDir ++ "/" ++ outlineFname name,
        ⟨(outlineFname name, outlineUrl name A) :: cache.entries⟩, false) := by
  constructor
  · rw [fetch_outline_valid cache cacheDir name A hmem,
      poochRetrieve_miss cache cacheDir (outlineUrl name A)
        (outlineFname name) hnone]
  · have hl2 : (Cache.mk ((outlineFname name, outlineUrl name A)
        :: cache.entries)).entries.lookup (outlineFname name) =
        some (outlineUrl name A) := by
      simp [List.lookup]
    rw [fetch_outline_valid _ cacheDir name B hmem,
      poochRetrieve_hit _ cacheDir (outlineUrl name B)
        (outlineFname name) (outlineUrl name A) hl2]

/-- C9 witness: fetching helheim under commit "aaa" then commit "bbb"
yields the same path twice; the second call downloads nothing and the
cached file is still the one from commit "aaa". -/
theorem C9_commit_independent_cache_path_witness :
    fetch_outline ⟨[]⟩ "cache" "helheim" (some "aaa") =
      .ok ("cache" ++ "/" ++ outlineFname "helheim",
        ⟨[(outlineFname "helheim", outlineUrl "helheim" (some "aaa"))]⟩,
        true) ∧
    fetch_outline
        ⟨[(outlineFname "helheim", outlineUrl "helheim" (some "aaa"))]⟩
        "cache" "helheim" (some "bbb") =
      .ok ("cache" ++ "/" ++ outlineFname "helheim",
        ⟨[(outlineFname "helheim", outlineUrl "helheim" (some "aaa"))]⟩,
        false) :=
  C9_commit_independent_cache_path ⟨[]⟩ "cache" "helheim"
    (some "aaa") (some "bbb") (by decide) rfl

/-- C8: `get_glacier_names()` returns exactly 11 names, in the same fixed
order, across repeated calls (the embedding is a pure constant, so every
call yields this very list). -/
theorem C8_glacier_names_fixed_eleven :
    get_glacier_names.length = 11 ∧
    get_glacier_names =
      ["amery", "filchner-ronne", "getz", "helheim", "hiawatha", "jakobshavn",
       "larsen-2015", "larsen-2018", "larsen-2019", "pine-island", "ross"] := by
  constructor <;> rfl

end Icepack
